import Mathlib

/-
Verification of the agent decision loop of the tariff-crawl program
(`main.py`).  The Python source is shallowly embedded: external
collaborators (the language-model call, the browser primitives) become
explicit parameters, and the functions of the source become total Lean
functions over those parameters.  All text is modelled as `List Char`.
-/

set_option maxRecDepth 4000

/-- The curly-brace characters, written via code points. -/
def lbrace : Char := Char.ofNat 123

def rbrace : Char := Char.ofNat 125

/-- JSON values as produced by `json.loads`.  Numbers are modelled as
integers; floating-point literals are outside the model (no claim
depends on them). -/
inductive JsonValue where
  | null
  | bool (b : Bool)
  | num (n : Int)
  | str (s : List Char)
  | arr (xs : List JsonValue)
  | obj (kvs : List (List Char × JsonValue))

/-- JSON whitespace accepted by `json.loads`. -/
def isJsonWs (c : Char) : Bool :=
  c = ' ' || c = '\t' || c = '\n' || c = '\r'

def skipWs : List Char → List Char
  | [] => []
  | c :: rest => if isJsonWs c then skipWs rest else c :: rest

/-- Escape sequences inside JSON strings.  `\uXXXX` escapes are outside
the model. -/
def escChar (c : Char) : Option Char :=
  if c = '"' then some '"'
  else if c = '\\' then some '\\'
  else if c = '/' then some '/'
  else if c = 'n' then some '\n'
  else if c = 't' then some '\t'
  else if c = 'r' then some '\r'
  else if c = 'b' then some (Char.ofNat 8)
  else if c = 'f' then some (Char.ofNat 12)
  else none

/-- Body of a JSON string after the opening quote: content plus the
remaining input after the closing quote. -/
def parseStringBody : List Char → Option (List Char × List Char)
  | [] => none
  | c :: rest =>
    if c = '"' then some ([], rest)
    else if c = '\\' then
      match rest with
      | [] => none
      | e :: rest2 =>
        match escChar e, parseStringBody rest2 with
        | some ch, some (s, r) => some (ch :: s, r)
        | _, _ => none
    else if c.toNat < 32 then none
    else
      match parseStringBody rest with
      | some (s, r) => some (c :: s, r)
      | none => none

def takeDigits : List Char → List Char × List Char
  | [] => ([], [])
  | c :: rest =>
    if c.isDigit then
      let p := takeDigits rest
      (c :: p.1, p.2)
    else ([], c :: rest)

def digitsVal (ds : List Char) : Nat :=
  ds.foldl (fun acc c => acc * 10 + (c.toNat - 48)) 0

/-- A JSON number after the optional minus sign.  JSON forbids leading
zeros; fraction/exponent parts are outside the model. -/
def parseNumTail (neg : Bool) (s : List Char) : Option (JsonValue × List Char) :=
  match takeDigits s with
  | ([], _) => none
  | ('0' :: _ :: _, _) => none
  | (ds, r) =>
    let v : Int := if neg then -(Int.ofNat (digitsVal ds)) else Int.ofNat (digitsVal ds)
    match r with
    | c :: _ =>
      if c = '.' || c = 'e' || c = 'E' then none
      else some (JsonValue.num v, r)
    | [] => some (JsonValue.num v, r)

/-- Parsing mode: a single value, the elements of an array after `[`,
or the members of an object after the opening brace. -/
inductive JMode where
  | jvalue
  | jarrTail
  | jobjTail

/-- Fuel-bounded recursive-descent JSON parser, modelling `json.loads`. -/
def parseJ : Nat → JMode → List Char → Option (JsonValue × List Char)
  | 0, _, _ => none
  | Nat.succ fuel, JMode.jvalue, s =>
    match skipWs s with
    | [] => none
    | c :: rest =>
      if c = '"' then
        match parseStringBody rest with
        | some (str, r) => some (JsonValue.str str, r)
        | none => none
      else if c = '[' then
        match skipWs rest with
        | ']' :: r => some (JsonValue.arr [], r)
        | _ => parseJ fuel JMode.jarrTail rest
      else if c = lbrace then
        match skipWs rest with
        | [] => none
        | r0 :: r => if r0 = rbrace then some (JsonValue.obj [], r)
                     else parseJ fuel JMode.jobjTail rest
      else if c = 't' then
        match rest with
        | 'r' :: 'u' :: 'e' :: r => some (JsonValue.bool true, r)
        | _ => none
      else if c = 'f' then
        match rest with
        | 'a' :: 'l' :: 's' :: 'e' :: r => some (JsonValue.bool false, r)
        | _ => none
      else if c = 'n' then
        match rest with
        | 'u' :: 'l' :: 'l' :: r => some (JsonValue.null, r)
        | _ => none
      else if c = '-' then parseNumTail true rest
      else if c.isDigit then parseNumTail false (c :: rest)
      else none
  | Nat.succ fuel, JMode.jarrTail, s =>
    match parseJ fuel JMode.jvalue s with
    | some (v, r) =>
      match skipWs r with
      | ',' :: r2 =>
        match parseJ fuel JMode.jarrTail r2 with
        | some (JsonValue.arr vs, r3) => some (JsonValue.arr (v :: vs), r3)
        | _ => none
      | ']' :: r2 => some (JsonValue.arr [v], r2)
      | _ => none
    | none => none
  | Nat.succ fuel, JMode.jobjTail, s =>
    match skipWs s with
    | '"' :: r =>
      match parseStringBody r with
      | some (k, r2) =>
        match skipWs r2 with
        | ':' :: r3 =>
          match parseJ fuel JMode.jvalue r3 with
          | some (v, r4) =>
            match skipWs r4 with
            | ',' :: r5 =>
              match parseJ fuel JMode.jobjTail r5 with
              | some (JsonValue.obj kvs, r6) => some (JsonValue.obj ((k, v) :: kvs), r6)
              | _ => none
            | c5 :: r5 => if c5 = rbrace then some (JsonValue.obj [(k, v)], r5) else none
            | [] => none
          | none => none
        | _ => none
      | none => none
    | _ => none

/-- `json.loads`: parse one JSON document; trailing non-whitespace is
an error ("Extra data"). -/
def json_loads (s : List Char) : Option JsonValue :=
  match parseJ (2 * s.length + 2) JMode.jvalue s with
  | some (v, r) => if (skipWs r).isEmpty then some v else none
  | none => none

/-- The input up to and including the LAST occurrence of `c`, if any.
This is how a greedy `.*` before a literal behaves under `re.DOTALL`. -/
def lastSplit (c : Char) : List Char → Option (List Char)
  | [] => none
  | x :: rest =>
    match lastSplit c rest with
    | some t => some (x :: t)
    | none => if x = c then some [x] else none

/-- The span matched by `re.search` for the pattern that greedily
matches a bracketed array or braced object (used by both
`analyze_page_for_action` variants): the leftmost `[` or opening brace
that has a matching closer somewhere later, out to the LAST such
closer. -/
def re_search_span : List Char → Option (List Char)
  | [] => none
  | c :: rest =>
    if c = '[' then
      match lastSplit ']' rest with
      | some t => some ('[' :: t)
      | none => re_search_span rest
    else if c = lbrace then
      match lastSplit rbrace rest with
      | some t => some (c :: t)
      | none => re_search_span rest
    else re_search_span rest

/-- The span matched by the array-only pattern of
`extract_tariff_updates`. -/
def re_search_array_span : List Char → Option (List Char)
  | [] => none
  | c :: rest =>
    if c = '[' then
      match lastSplit ']' rest with
      | some t => some ('[' :: t)
      | none => re_search_array_span rest
    else re_search_array_span rest

/-- Failures of the external model call (transport errors, timeouts);
all are caught by the enclosing `except Exception` in the source. -/
inductive TransportErr where
  | timeoutErr
  | apiErr
  deriving DecidableEq

/-- `analyze_page_for_action`: the model response (or a transport
error) is turned into the parsed JSON value; a transport error, an
absent span, or a malformed span all yield the empty object, never an
exception. -/
def analyze_page_for_action (resp : Except TransportErr (List Char)) : JsonValue :=
  match resp with
  | Except.error _ => JsonValue.obj []
  | Except.ok ai_output =>
    match re_search_span ai_output with
    | none => JsonValue.obj []
    | some json_string =>
      match json_loads json_string with
      | some action_obj => action_obj
      | none => JsonValue.obj []

/-- `analyze_page_for_action_html_only`: identical parsing contract,
request built without the screenshot. -/
def analyze_page_for_action_html_only (resp : Except TransportErr (List Char)) : JsonValue :=
  match resp with
  | Except.error _ => JsonValue.obj []
  | Except.ok ai_output =>
    match re_search_span ai_output with
    | none => JsonValue.obj []
    | some json_string =>
      match json_loads json_string with
      | some action_obj => action_obj
      | none => JsonValue.obj []

/-- `extract_tariff_updates`: array-only scan; every failure path
returns the empty list. -/
def extract_tariff_updates (resp : Except TransportErr (List Char)) : JsonValue :=
  match resp with
  | Except.error _ => JsonValue.arr []
  | Except.ok ai_output =>
    match re_search_array_span ai_output with
    | none => JsonValue.arr []
    | some json_string =>
      match json_loads json_string with
      | some updates => updates
      | none => JsonValue.arr []

/-- Python truthiness of a JSON value (`if not action_obj`). -/
def pyTruthy : JsonValue → Bool
  | JsonValue.null => false
  | JsonValue.bool b => b
  | JsonValue.num n => decide (n ≠ 0)
  | JsonValue.str s => !s.isEmpty
  | JsonValue.arr xs => !xs.isEmpty
  | JsonValue.obj kvs => !kvs.isEmpty

/-- `dict.get`: `json.loads` builds its dict left to right with later
duplicate keys overriding earlier ones, so lookup returns the LAST
binding of the key. -/
def lookupKey (kvs : List (List Char × JsonValue)) (k : List Char) : Option JsonValue :=
  match kvs with
  | [] => none
  | (k1, v) :: rest =>
    match lookupKey rest k with
    | some r => some r
    | none => if k1 = k then some v else none

def actionKey : List Char := ['a', 'c', 't', 'i', 'o', 'n']

def xpathKey : List Char := ['x', 'p', 'a', 't', 'h']

def textKey : List Char := ['t', 'e', 'x', 't']

def clickWord : List Char := ['c', 'l', 'i', 'c', 'k']

def typeWord : List Char := ['t', 'y', 'p', 'e']

/-- Python `value == "word"` where `value` came from `dict.get` (it may
be absent or a non-string JSON value). -/
def isStrEq (v : Option JsonValue) (w : List Char) : Bool :=
  match v with
  | some (JsonValue.str t) => decide (t = w)
  | _ => false

/-- Selenium exceptions that can escape an element-interaction
primitive.  `otherExn` stands for everything that is not
`NoSuchElementException` or `TimeoutException` (e.g. a click
intercepted by an overlay). -/
inductive Exn where
  | noSuchElement
  | timeoutExn
  | otherExn
  deriving DecidableEq

/-- `Browser.click_element`: the wait-and-click primitive either
returns or raises; only `NoSuchElementException` and
`TimeoutException` are caught and turned into `False`. -/
def click_element (prim : Except Exn Unit) : Except Exn Bool :=
  match prim with
  | Except.ok _ => Except.ok true
  | Except.error Exn.noSuchElement => Except.ok false
  | Except.error Exn.timeoutExn => Except.ok false
  | Except.error e => Except.error e

/-- The inline `type` handler of `process_tariff_source` (wait, clear,
`send_keys`): same two exceptions caught, everything else escapes. -/
def type_element (prim : Except Exn Unit) : Except Exn Bool :=
  match prim with
  | Except.ok _ => Except.ok true
  | Except.error Exn.noSuchElement => Except.ok false
  | Except.error Exn.timeoutExn => Except.ok false
  | Except.error e => Except.error e

/-- One loop iteration's interface to the external world: the model
call results for the visual and the HTML-only requests, and what the
element-interaction primitives would do this iteration. -/
structure IterEnv where
  visualResp : Except TransportErr (List Char)
  htmlResp : Except TransportErr (List Char)
  clickPrim : Except Exn Unit
  typePrim : Except Exn Unit

/-- Interaction events performed by the loop, in order. -/
inductive ActionEvt where
  | click (xpath : Option JsonValue)
  | typed (xpath : Option JsonValue) (text : JsonValue)

/-- Result of one iteration of the interaction loop. -/
inductive StepRes where
  | noDecision (hc : Nat)
  | extracted (updates : List JsonValue) (hc : Nat)
  | continueClick (xpath : Option JsonValue) (hc : Nat)
  | continueType (xpath : Option JsonValue) (text : JsonValue) (hc : Nat)
  | failedAction (evts : List ActionEvt) (hc : Nat)
  | raised (e : Exn) (evts : List ActionEvt) (hc : Nat)

/-- The body of one iteration after the decision value `a` is fixed
(`hc` counts HTML-only fallback calls made while obtaining `a`).
Mirrors the `if not action_obj ... else` chain of the source: a falsy
value stops the loop, a list is a direct extraction, otherwise the
`action` key selects the click/type handler, anything else is an
unknown action.  The final catch-all models the `AttributeError` that
`.get` on a non-dict would raise; it is unreachable from the parser,
which only returns arrays and objects here. -/
def loop_step_core (a : JsonValue) (hc : Nat) (clickPrim typePrim : Except Exn Unit) : StepRes :=
  if pyTruthy a then
    match a with
    | JsonValue.arr updates => StepRes.extracted updates hc
    | JsonValue.obj kvs =>
      let action := lookupKey kvs actionKey
      let xpath := lookupKey kvs xpathKey
      let text := (lookupKey kvs textKey).getD (JsonValue.str [])
      if isStrEq action clickWord then
        match click_element clickPrim with
        | Except.ok true => StepRes.continueClick xpath hc
        | Except.ok false => StepRes.failedAction [ActionEvt.click xpath] hc
        | Except.error e => StepRes.raised e [ActionEvt.click xpath] hc
      else if isStrEq action typeWord then
        match type_element typePrim with
        | Except.ok true => StepRes.continueType xpath text hc
        | Except.ok false => StepRes.failedAction [ActionEvt.typed xpath text] hc
        | Except.error e => StepRes.raised e [ActionEvt.typed xpath text] hc
      else StepRes.failedAction [] hc
    | _ => StepRes.raised Exn.otherExn [] hc
  else StepRes.noDecision hc

/-- One full observe-decide-act iteration: visual decision first, one
HTML-only fallback when the visual result is falsy. -/
def loop_step (e : IterEnv) : StepRes :=
  let a1 := analyze_page_for_action e.visualResp
  if pyTruthy a1 then loop_step_core a1 0 e.clickPrim e.typePrim
  else loop_step_core (analyze_page_for_action_html_only e.htmlResp) 1 e.clickPrim e.typePrim

/-- The terminal states of the loop (§4.4 of the specification,
mapped onto the `return`/`break`/for-else exits of the source). -/
inductive TerminatedBy where
  | extracted
  | noDecision
  | actionFailed
  | maxIterations
  | navigationFailed
  deriving DecidableEq

/-- Observable result of the interaction loop: the terminal state (or
the exception that escaped), the extracted updates, the
`save_results` calls made, the interaction events performed, the
number of HTML-only fallback calls, and the number of iterations
entered. -/
structure LoopRes where
  term : Except Exn TerminatedBy
  updates : List JsonValue
  saves : List (List Char × List JsonValue)
  actions : List ActionEvt
  htmlCalls : Nat
  cycles : Nat

/-- The `for i in range(max_iterations)` loop of
`process_tariff_source`, with `i` the current iteration index and the
second argument the remaining iteration budget.  Exhausting the budget
is the for-else branch (`MaxIterations`). -/
def run_iters (market : List Char) (env : Nat → IterEnv) : Nat → Nat → LoopRes
  | _, 0 => ⟨Except.ok TerminatedBy.maxIterations, [], [], [], 0, 0⟩
  | i, Nat.succ r =>
    match loop_step (env i) with
    | StepRes.noDecision hc =>
      ⟨Except.ok TerminatedBy.noDecision, [], [], [], hc, 1⟩
    | StepRes.extracted updates hc =>
      ⟨Except.ok TerminatedBy.extracted, updates, [(market, updates)], [], hc, 1⟩
    | StepRes.continueClick xpath hc =>
      let rest := run_iters market env (i + 1) r
      ⟨rest.term, rest.updates, rest.saves, ActionEvt.click xpath :: rest.actions,
        hc + rest.htmlCalls, 1 + rest.cycles⟩
    | StepRes.continueType xpath text hc =>
      let rest := run_iters market env (i + 1) r
      ⟨rest.term, rest.updates, rest.saves, ActionEvt.typed xpath text :: rest.actions,
        hc + rest.htmlCalls, 1 + rest.cycles⟩
    | StepRes.failedAction evts hc =>
      ⟨Except.ok TerminatedBy.actionFailed, [], [], evts, hc, 1⟩
    | StepRes.raised e evts hc =>
      ⟨Except.error e, [], [], evts, hc, 1⟩

/-- What one navigation attempt does: raise, or land on a page with a
final URL and a title. -/
inductive NavAttempt where
  | exn
  | page (url : List Char) (title : List Char)

/-- Result of `Browser.go_to_url`, with the number of attempts made
and the delays slept between them. -/
structure NavRes where
  success : Bool
  attempts : Nat
  delays : List Nat

def dataScheme : List Char := ['d', 'a', 't', 'a', ':']

def notFound404 : List Char := ['4', '0', '4']

def containsSub (needle : List Char) : List Char → Bool
  | [] => needle.isEmpty
  | c :: rest => List.isPrefixOf needle (c :: rest) || containsSub needle rest

/-- The invalid-outcome check of `go_to_url`: a `data:` URL or a title
whose lowercase form contains "404". -/
def invalid_nav_page (url title : List Char) : Bool :=
  List.isPrefixOf dataScheme url || containsSub notFound404 (title.map Char.toLower)

/-- The attempt loop of `Browser.go_to_url`.  An exception sleeps
`2 ** attempt` and retries; an invalid page returns `False` at once;
a valid page returns `True`. -/
def go_to_url_go (nav : Nat → NavAttempt) : Nat → Nat → NavRes
  | _, 0 => ⟨false, 0, []⟩
  | i, Nat.succ r =>
    match nav i with
    | NavAttempt.page url title =>
      if invalid_nav_page url title then ⟨false, 1, []⟩
      else ⟨true, 1, []⟩
    | NavAttempt.exn =>
      let rest := go_to_url_go nav (i + 1) r
      ⟨rest.success, 1 + rest.attempts, 2 ^ i :: rest.delays⟩

/-- `Browser.go_to_url(url, retries=3)`. -/
def go_to_url (nav : Nat → NavAttempt) (retries : Nat) : NavRes :=
  go_to_url_go nav 0 retries

/-- Result of `process_tariff_source`, adding the number of
`browser.quit()` calls made by the `finally` block. -/
structure ProcRes where
  term : Except Exn TerminatedBy
  updates : List JsonValue
  saves : List (List Char × List JsonValue)
  actions : List ActionEvt
  htmlCalls : Nat
  cycles : Nat
  quits : Nat

/-- `process_tariff_source`: navigate (3 attempts), then up to
`max_iterations = 5` loop iterations, with `browser.quit()` in the
`finally` block on every exit, exceptions included.  Session
acquisition (`get_thread_browser`) is modelled separately below. -/
def process_tariff_source (market : List Char) (nav : Nat → NavAttempt)
    (env : Nat → IterEnv) : ProcRes :=
  if (go_to_url nav 3).success then
    let r := run_iters market env 0 5
    ⟨r.term, r.updates, r.saves, r.actions, r.htmlCalls, r.cycles, 1⟩
  else
    ⟨Except.ok TerminatedBy.navigationFailed, [], [], [], 0, 0, 1⟩

/-- The thread-local browser cache of one worker: the cached browser
id (`thread_local.browser`), the next fresh id, and the ids on which
`quit()` has been called. -/
structure BrowserState where
  cache : Option Nat
  nextId : Nat
  released : List Nat

def initBrowserState : BrowserState := ⟨none, 0, []⟩

/-- `get_thread_browser(max_retries=3)`: return the cached browser if
one exists; otherwise create one under the init lock, where
`create k` says whether the `k`-th `Browser()` construction attempt
succeeds, and all three failing re-raises. -/
def get_thread_browser (create : Nat → Bool) (st : BrowserState) :
    Except Unit (Nat × BrowserState) :=
  match st.cache with
  | some b => Except.ok (b, st)
  | none =>
    if create 0 || create 1 || create 2 then
      Except.ok (st.nextId, ⟨some st.nextId, st.nextId + 1, st.released⟩)
    else Except.error ()

/-- `Browser.quit`: releases the driver; the thread-local cache is NOT
touched. -/
def quit_browser (b : Nat) (st : BrowserState) : BrowserState :=
  ⟨st.cache, st.nextId, b :: st.released⟩

/-- The session lifecycle of one `process_tariff_source` call as seen
by the cache: acquire the thread browser at entry, `quit()` it in the
`finally` block.  Returns the new state and the browser id used. -/
def process_with_session (create : Nat → Bool) (st : BrowserState) :
    Except Unit (BrowserState × Nat) :=
  match get_thread_browser create st with
  | Except.error e => Except.error e
  | Except.ok (b, st1) => Except.ok (quit_browser b st1, b)

/-- One entry of the source list (`test_sources.json`): the fields the
orchestrator reads via `.get`. -/
structure Source where
  market : Option (List Char)
  link : Option (List Char)
  status : Option (List Char)

def statusActive : List Char := ['1']

def httpWord : List Char := ['h', 't', 't', 'p']

/-- The active filter of the orchestrator: `status == "1"`. -/
def isActive (s : Source) : Bool :=
  match s.status with
  | some t => decide (t = statusActive)
  | none => false

/-- The URL validation of the orchestrator:
`not url or url.startswith("http") is False` skips the source. -/
def validUrl : Option (List Char) → Bool
  | none => false
  | some u => !u.isEmpty && List.isPrefixOf httpWord u

/-- What the orchestrator records for one source. -/
inductive SrcEvent (A : Type) where
  | skipped
  | done (a : A)
  | caught (e : Exn)

/-- The per-source body of the main loop: validate the URL, then call
the per-source processing inside `try ... except Exception`. -/
def source_event {A : Type} (proc : Source → Except Exn A) (s : Source) : SrcEvent A :=
  if validUrl s.link then
    match proc s with
    | Except.ok a => SrcEvent.done a
    | Except.error e => SrcEvent.caught e
  else SrcEvent.skipped

/-- The `for i, source in enumerate(...)` loop over the (already
filtered and truncated) source list. -/
def orchLoop {A : Type} (proc : Source → Except Exn A) : List Source → List (SrcEvent A)
  | [] => []
  | s :: rest => source_event proc s :: orchLoop proc rest

def max_sources : Nat := 2

/-- The `__main__` batch: keep active sources, truncate to
`max_sources`, run the per-source loop. -/
def main_source_loop {A : Type} (proc : Source → Except Exn A) (sources : List Source) :
    List (SrcEvent A) :=
  orchLoop proc ((sources.filter isActive).take max_sources)

/-- The exponential-backoff delays `2 ** attempt` produced by `n`
consecutive exception attempts starting at attempt index `i`. -/
def backoffDelays : Nat → Nat → List Nat
  | _, 0 => []
  | i, Nat.succ r => 2 ^ i :: backoffDelays (i + 1) r

/- Concrete scenario data used by counterexamples and witnesses. -/

def mkt0 : List Char := "Turkmenistan - TM".toList

def goodUrl : List Char := "http://example.com/news".toList

def goodTitle : List Char := "Customs News".toList

/-- A navigation primitive that always lands on a valid page. -/
def navOk : Nat → NavAttempt := fun _ => NavAttempt.page goodUrl goodTitle

/-- A navigation primitive that raises twice, then succeeds. -/
def navThirdTry : Nat → NavAttempt :=
  fun i => if i < 2 then NavAttempt.exn else NavAttempt.page goodUrl goodTitle

def title404 : List Char := "404 Not Found".toList

/-- A navigation primitive that lands on a 404 page first, then on a
valid page. -/
def navInvalidThenGood : Nat → NavAttempt :=
  fun i => if i = 0 then NavAttempt.page goodUrl title404
           else NavAttempt.page goodUrl goodTitle

def clickText : List Char := "\x7b\"action\":\"click\",\"xpath\":\"x1\"\x7d".toList

def typeText : List Char := "\x7b\"action\":\"type\",\"xpath\":\"x2\",\"text\":\"t\"\x7d".toList

def extractText : List Char := "[\x7b\"date\":\"d1\"\x7d, \x7b\"date\":\"d2\"\x7d]".toList

def emptyObjText : List Char := "\x7b\x7d".toList

def emptyArrText : List Char := "[]".toList

def noActionText : List Char := "\x7b\"xpath\":\"a\"\x7d".toList

def u1 : JsonValue := JsonValue.obj [("date".toList, JsonValue.str ("d1".toList))]

def u2 : JsonValue := JsonValue.obj [("date".toList, JsonValue.str ("d2".toList))]

def envClick : IterEnv :=
  ⟨Except.ok clickText, Except.ok emptyObjText, Except.ok (), Except.ok ()⟩

def envType : IterEnv :=
  ⟨Except.ok typeText, Except.ok emptyObjText, Except.ok (), Except.ok ()⟩

def envExtract : IterEnv :=
  ⟨Except.ok extractText, Except.ok emptyObjText, Except.ok (), Except.ok ()⟩

/-- Decisions that always continue: a successful click every
iteration. -/
def envAlwaysClick : Nat → IterEnv := fun _ => envClick

/-- The scripted decision sequence click, type, extract. -/
def envScripted : Nat → IterEnv :=
  fun i => if i = 0 then envClick else if i = 1 then envType else envExtract

/-- The model returns the empty JSON array on both paths. -/
def envEmptyArr : Nat → IterEnv :=
  fun _ => ⟨Except.ok emptyArrText, Except.ok emptyArrText, Except.ok (), Except.ok ()⟩

/-- The model returns the empty JSON object on both paths. -/
def envEmptyObj : Nat → IterEnv :=
  fun _ => ⟨Except.ok emptyObjText, Except.ok emptyObjText, Except.ok (), Except.ok ()⟩

/-- The model returns a non-empty object that lacks the `action`
key. -/
def envNoAction : Nat → IterEnv :=
  fun _ => ⟨Except.ok noActionText, Except.ok emptyObjText, Except.ok (), Except.ok ()⟩

/-- A click decision whose click primitive raises an exception other
than `NoSuchElementException`/`TimeoutException`. -/
def envClickRaises : Nat → IterEnv :=
  fun _ => ⟨Except.ok clickText, Except.ok emptyObjText,
            Except.error Exn.otherExn, Except.ok ()⟩

def cexText : List Char := "Results: [1, 2] also ]".toList

def embeddedArr : List Char := "[1, 2]".toList

def srcA : Source :=
  ⟨some ("A".toList), some ("http://a.example".toList), some statusActive⟩

def srcB : Source :=
  ⟨some ("B".toList), some ("http://b.example".toList), some statusActive⟩

/-- A per-source processing that throws on source `A` and yields `7`
otherwise. -/
def procW : Source → Except Exn Nat :=
  fun s =>
    match s.market with
    | some m => if m = "A".toList then Except.error Exn.otherExn else Except.ok 7
    | none => Except.ok 7

/- Helper lemmas. -/

theorem lookupKey_ne_nil {kvs : List (List Char × JsonValue)} {k : List Char}
    {v : JsonValue} (h : lookupKey kvs k = some v) : kvs ≠ [] := by
  cases kvs with
  | nil => simp [lookupKey] at h
  | cons a rest => simp

theorem pyTruthy_obj_ne_nil {kvs : List (List Char × JsonValue)} (h : kvs ≠ []) :
    pyTruthy (JsonValue.obj kvs) = true := by
  cases kvs with
  | nil => exact absurd rfl h
  | cons a rest => simp [pyTruthy]

/-- The extraction branch of one iteration only fires for a truthy,
hence non-empty, parsed array. -/
theorem loop_step_core_extracted_ne_nil (a : JsonValue) (hc : Nat)
    (cp tp : Except Exn Unit) (us : List JsonValue) (hc2 : Nat)
    (h : loop_step_core a hc cp tp = StepRes.extracted us hc2) : us ≠ [] := by
  cases a with
  | null => simp [loop_step_core, pyTruthy] at h
  | bool b => cases b <;> simp [loop_step_core, pyTruthy] at h
  | num n =>
    by_cases hn : n = 0
    · simp [loop_step_core, pyTruthy, hn] at h
    · simp [loop_step_core, pyTruthy, hn] at h
  | str s =>
    cases s with
    | nil => simp [loop_step_core, pyTruthy] at h
    | cons c cs => simp [loop_step_core, pyTruthy] at h
  | arr xs =>
    cases xs with
    | nil => simp [loop_step_core, pyTruthy] at h
    | cons y ys =>
      simp only [loop_step_core, pyTruthy, List.isEmpty_cons, Bool.not_false,
        if_true] at h
      rw [StepRes.extracted.injEq] at h
      rw [← h.1]
      simp
  | obj kvs =>
    cases kvs with
    | nil => simp [loop_step_core, pyTruthy] at h
    | cons p rest =>
      rw [loop_step_core, if_pos (by simp [pyTruthy])] at h
      dsimp only at h
      split at h
      · split at h <;> simp at h
      · split at h
        · split at h <;> simp at h
        · simp at h

theorem loop_step_extracted_ne_nil (e : IterEnv) (us : List JsonValue) (hc : Nat)
    (h : loop_step e = StepRes.extracted us hc) : us ≠ [] := by
  rw [loop_step] at h
  split at h
  · exact loop_step_core_extracted_ne_nil _ _ _ _ _ _ h
  · exact loop_step_core_extracted_ne_nil _ _ _ _ _ _ h

/-- Persistence invariant of the interaction loop: `save_results` is
called exactly on the extraction exit, with a non-empty update list;
every other exit saves nothing. -/
theorem run_iters_saves (market : List Char) (env : Nat → IterEnv) (i n : Nat) :
    ((run_iters market env i n).term = Except.ok TerminatedBy.extracted →
      (run_iters market env i n).saves = [(market, (run_iters market env i n).updates)] ∧
      (run_iters market env i n).updates ≠ []) ∧
    ((run_iters market env i n).term ≠ Except.ok TerminatedBy.extracted →
      (run_iters market env i n).saves = []) := by
  induction n generalizing i with
  | zero =>
    constructor
    · intro h
      simp [run_iters] at h
    · intro _
      rfl
  | succ r ih =>
    cases hstep : loop_step (env i) with
    | noDecision hc =>
      constructor
      · intro h
        simp [run_iters, hstep] at h
      · intro _
        simp [run_iters, hstep]
    | extracted us hc =>
      constructor
      · intro _
        refine ⟨by simp [run_iters, hstep], ?_⟩
        have hne := loop_step_extracted_ne_nil (env i) us hc hstep
        simpa [run_iters, hstep] using hne
      · intro h
        exact absurd (by simp [run_iters, hstep]) h
    | continueClick xp hc =>
      have hrec := ih (i + 1)
      constructor
      · intro h
        rw [show (run_iters market env i (r + 1)).term =
              (run_iters market env (i + 1) r).term by simp [run_iters, hstep]] at h
        have := hrec.1 h
        simpa [run_iters, hstep] using this
      · intro h
        rw [show (run_iters market env i (r + 1)).term =
              (run_iters market env (i + 1) r).term by simp [run_iters, hstep]] at h
        have := hrec.2 h
        simpa [run_iters, hstep] using this
    | continueType xp tx hc =>
      have hrec := ih (i + 1)
      constructor
      · intro h
        rw [show (run_iters market env i (r + 1)).term =
              (run_iters market env (i + 1) r).term by simp [run_iters, hstep]] at h
        have := hrec.1 h
        simpa [run_iters, hstep] using this
      · intro h
        rw [show (run_iters market env i (r + 1)).term =
              (run_iters market env (i + 1) r).term by simp [run_iters, hstep]] at h
        have := hrec.2 h
        simpa [run_iters, hstep] using this
    | failedAction evts hc =>
      constructor
      · intro h
        simp [run_iters, hstep] at h
      · intro _
        simp [run_iters, hstep]
    | raised e evts hc =>
      constructor
      · intro h
        simp [run_iters, hstep] at h
      · intro _
        simp [run_iters, hstep]

/-- C1 (amended): the update list is handed to the persistence
collaborator keyed by market only on the `Extracted` terminal outcome,
and only a non-empty parsed array reaches that outcome; every other
terminal outcome of `process_tariff_source` persists nothing. -/
theorem claim1_save_only_on_extracted (market : List Char) (nav : Nat → NavAttempt)
    (env : Nat → IterEnv) :
    ((process_tariff_source market nav env).term = Except.ok TerminatedBy.extracted →
      (process_tariff_source market nav env).saves =
        [(market, (process_tariff_source market nav env).updates)] ∧
      (process_tariff_source market nav env).updates ≠ []) ∧
    ((process_tariff_source market nav env).term ≠ Except.ok TerminatedBy.extracted →
      (process_tariff_source market nav env).saves = []) := by
  rw [process_tariff_source]
  split
  · exact run_iters_saves market env 0 5
  · constructor
    · intro h
      simp at h
    · intro _
      rfl

/-- C1 counterexample: when the model answers with the empty JSON
array (a valid "no updates" answer per the prompt contract), the loop
treats it as falsy, terminates with `NoDecision`, and persists
nothing — the empty update list is discarded, not saved. -/
theorem claim1_counterexample_empty_array_discarded :
    analyze_page_for_action (Except.ok emptyArrText) = JsonValue.arr [] ∧
    process_tariff_source mkt0 navOk envEmptyArr =
      ⟨Except.ok TerminatedBy.noDecision, [], [], [], 1, 1, 1⟩ := by
  exact ⟨rfl, rfl⟩

/-- C1 witness: the amended theorem applied to the scripted extraction
run (saves happen, with the extracted updates) and to the empty-array
run (nothing saved). -/
theorem claim1_witness :
    ((process_tariff_source mkt0 navOk envScripted).saves =
      [(mkt0, (process_tariff_source mkt0 navOk envScripted).updates)] ∧
      (process_tariff_source mkt0 navOk envScripted).updates ≠ []) ∧
    (process_tariff_source mkt0 navOk envEmptyArr).saves = [] := by
  refine ⟨(claim1_save_only_on_extracted mkt0 navOk envScripted).1 (by rfl), ?_⟩
  refine (claim1_save_only_on_extracted mkt0 navOk envEmptyArr).2 ?_
  intro h
  have h2 := Except.ok.inj h
  cases h2

theorem lastSplit_eq_none {c : Char} {s : List Char} (h : ∀ x ∈ s, x ≠ c) :
    lastSplit c s = none := by
  induction s with
  | nil => rfl
  | cons a rest ih =>
    have ha : a ≠ c := h a (List.mem_cons_self a rest)
    rw [lastSplit, ih (fun x hx => h x (List.mem_cons_of_mem a hx))]
    simp [ha]

/-- The greedy `.*` before a literal closer grabs everything up to the
LAST occurrence of the closer. -/
theorem lastSplit_append {c : Char} (l s : List Char) (h : ∀ x ∈ s, x ≠ c) :
    lastSplit c (l ++ c :: s) = some (l ++ [c]) := by
  induction l with
  | nil =>
    rw [List.nil_append, lastSplit, lastSplit_eq_none h]
    simp
  | cons a l2 ih =>
    rw [List.cons_append, lastSplit, ih]
    rfl

/-- The leftmost-match scan skips any leading text that contains no
opening bracket or brace. -/
theorem re_search_span_skip (p t : List Char)
    (hp : ∀ c ∈ p, c ≠ '[' ∧ c ≠ lbrace) :
    re_search_span (p ++ t) = re_search_span t := by
  induction p with
  | nil => rfl
  | cons a p2 ih =>
    have ha := hp a (List.mem_cons_self a p2)
    rw [List.cons_append, re_search_span]
    simp only [ha.1, ha.2, if_false]
    exact ih (fun c hc => hp c (List.mem_cons_of_mem a hc))

/-- C2 (amended): when a well-formed JSON array appears in prose whose
leading part has no `[` or brace and whose trailing part has no `]`,
the decision parser returns exactly that array. -/
theorem claim2_parse_extracts_embedded_array (p core s : List Char) (v : JsonValue)
    (hp : ∀ c ∈ p, c ≠ '[' ∧ c ≠ lbrace)
    (hs : ∀ c ∈ s, c ≠ ']')
    (hjson : json_loads ('[' :: (core ++ [']'])) = some v) :
    analyze_page_for_action (Except.ok (p ++ ('[' :: (core ++ [']'])) ++ s)) = v := by
  have hspan : re_search_span (p ++ ('[' :: (core ++ [']'])) ++ s) =
      some ('[' :: (core ++ [']'])) := by
    rw [List.append_assoc, re_search_span_skip p _ hp]
    show re_search_span ('[' :: ((core ++ [']']) ++ s)) = _
    rw [re_search_span]
    simp only [if_true, if_pos rfl]
    rw [List.append_assoc, List.singleton_append, lastSplit_append core s hs]
  simp only [analyze_page_for_action, hspan, hjson]

/-- C2 counterexample: the text `Results: [1, 2] also ]` contains
exactly one well-formed JSON array, `[1, 2]`, embedded in prose, yet
the parser returns the empty-object sentinel instead of that array:
the greedy regex span runs to the LAST `]`, producing the malformed
`[1, 2] also ]`. -/
theorem claim2_counterexample_trailing_bracket :
    json_loads embeddedArr = some (JsonValue.arr [JsonValue.num 1, JsonValue.num 2]) ∧
    containsSub embeddedArr cexText = true ∧
    re_search_span cexText = some ("[1, 2] also ]".toList) ∧
    analyze_page_for_action (Except.ok cexText) = JsonValue.obj [] := by
  exact ⟨rfl, rfl, rfl, rfl⟩

/-- C2 witness: the amended theorem applied to
`Here are the results: [1, 2] thanks.`. -/
theorem claim2_witness :
    analyze_page_for_action
        (Except.ok (("Here are the results: ".toList) ++
          ('[' :: (("1, 2".toList) ++ [']'])) ++ (" thanks.".toList))) =
      JsonValue.arr [JsonValue.num 1, JsonValue.num 2] := by
  exact claim2_parse_extracts_embedded_array ("Here are the results: ".toList)
    ("1, 2".toList) (" thanks.".toList)
    (JsonValue.arr [JsonValue.num 1, JsonValue.num 2])
    (by decide) (by decide) (by rfl)

/-- C3 (amended): a response parsing to the EMPTY object is
`NoDecision`: exactly one HTML-only fallback is attempted and, if it
also parses to an empty object, the loop terminates with `NoDecision`.
A response parsing to a non-empty object that merely lacks the
`action` key is NOT `NoDecision`: no fallback is attempted and the
loop terminates through the unknown-action branch (`ActionFailed`). -/
theorem claim3_empty_object_single_fallback (market : List Char) (env : Nat → IterEnv)
    (i n : Nat) (hn : 0 < n) :
    (analyze_page_for_action (env i).visualResp = JsonValue.obj [] →
      analyze_page_for_action_html_only (env i).htmlResp = JsonValue.obj [] →
      run_iters market env i n =
        ⟨Except.ok TerminatedBy.noDecision, [], [], [], 1, 1⟩) ∧
    (∀ kvs, analyze_page_for_action (env i).visualResp = JsonValue.obj kvs →
      kvs ≠ [] → lookupKey kvs actionKey = none →
      run_iters market env i n =
        ⟨Except.ok TerminatedBy.actionFailed, [], [], [], 0, 1⟩) := by
  obtain ⟨r, rfl⟩ : ∃ r, n = r + 1 := ⟨n - 1, by omega⟩
  constructor
  · intro hv hh
    have hstep : loop_step (env i) = StepRes.noDecision 1 := by
      rw [loop_step, hv]
      simp only [pyTruthy, List.isEmpty_nil, Bool.not_true, if_false, Bool.false_eq_true]
      rw [hh]
      rfl
    simp [run_iters, hstep]
  · intro kvs hv hne hact
    have hstep : loop_step (env i) = StepRes.failedAction [] 0 := by
      rw [loop_step, hv]
      rw [if_pos (pyTruthy_obj_ne_nil hne)]
      rw [loop_step_core, if_pos (pyTruthy_obj_ne_nil hne)]
      dsimp only
      rw [hact]
      rfl
    simp [run_iters, hstep]

/-- C3 counterexample: the response parses to a non-empty object
without an `action` key; the loop makes NO HTML-only fallback attempt
(fallback count 0) and terminates through the unknown-action branch
(`ActionFailed`), not with `NoDecision`. -/
theorem claim3_counterexample_missing_action_key :
    analyze_page_for_action (Except.ok noActionText) =
      JsonValue.obj [("xpath".toList, JsonValue.str ("a".toList))] ∧
    run_iters mkt0 envNoAction 0 5 =
      ⟨Except.ok TerminatedBy.actionFailed, [], [], [], 0, 1⟩ := by
  exact ⟨rfl, rfl⟩

/-- C3 witness: the amended theorem applied to the empty-object run
and to the missing-action-key run. -/
theorem claim3_witness :
    run_iters mkt0 envEmptyObj 0 5 =
      ⟨Except.ok TerminatedBy.noDecision, [], [], [], 1, 1⟩ ∧
    run_iters mkt0 envNoAction 0 5 =
      ⟨Except.ok TerminatedBy.actionFailed, [], [], [], 0, 1⟩ := by
  constructor
  · exact (claim3_empty_object_single_fallback mkt0 envEmptyObj 0 5 (by decide)).1 rfl rfl
  · exact (claim3_empty_object_single_fallback mkt0 envNoAction 0 5 (by decide)).2
      [("xpath".toList, JsonValue.str ("a".toList))] rfl (by simp) rfl

/-- C4 (amended): on exception the navigation retries with
exponentially growing delays `2 ** attempt` (1 time unit, then
doubling) and fails only after exhausting all attempts; an INVALID
outcome (a `data:` URL or a title containing "404"), however, returns
failure immediately without any retry.  A primitive that raises twice
then succeeds yields success after exactly 3 attempts, with strictly
increasing delays. -/
theorem claim4_nav_backoff :
    (∀ (nav : Nat → NavAttempt) url title, nav 0 = NavAttempt.page url title →
      invalid_nav_page url title = true →
      go_to_url nav 3 = ⟨false, 1, []⟩) ∧
    (∀ (nav : Nat → NavAttempt) (i n : Nat), (∀ j, nav j = NavAttempt.exn) →
      go_to_url_go nav i n = ⟨false, n, backoffDelays i n⟩) ∧
    go_to_url navThirdTry 3 = ⟨true, 3, [1, 2]⟩ ∧
    List.Chain' (fun a b => a < b) [1, 2] := by
  refine ⟨?_, ?_, by rfl, by norm_num [List.chain'_cons, List.chain'_singleton]⟩
  · intro nav url title h0 hinv
    rw [go_to_url]
    rw [show (3 : Nat) = 2 + 1 by rfl]
    rw [go_to_url_go, h0]
    simp [hinv]
  · intro nav i n hall
    induction n generalizing i with
    | zero => rfl
    | succ r ih =>
      simp only [go_to_url_go, hall i, ih (i + 1), backoffDelays]
      simp [Nat.add_comm]

/-- C4 counterexample: the first attempt lands on a "404" page (an
invalid outcome, no exception raised); `go_to_url` gives up after that
single attempt with no delay, even though a second attempt would have
succeeded — invalid outcomes are NOT retried. -/
theorem claim4_counterexample_invalid_not_retried :
    invalid_nav_page goodUrl title404 = true ∧
    navInvalidThenGood 0 = NavAttempt.page goodUrl title404 ∧
    go_to_url navInvalidThenGood 3 = ⟨false, 1, []⟩ ∧
    go_to_url (fun i => navInvalidThenGood (i + 1)) 3 = ⟨true, 1, []⟩ := by
  exact ⟨rfl, rfl, rfl, rfl⟩

/-- C4 witness: the amended theorem applied to the
invalid-on-first-attempt primitive and to an always-raising primitive
over 4 attempts. -/
theorem claim4_witness :
    go_to_url navInvalidThenGood 3 = ⟨false, 1, []⟩ ∧
    go_to_url_go (fun _ => NavAttempt.exn) 0 4 = ⟨false, 4, [1, 2, 4, 8]⟩ := by
  constructor
  · exact claim4_nav_backoff.1 navInvalidThenGood goodUrl title404 rfl rfl
  · have h := claim4_nav_backoff.2.1 (fun _ => NavAttempt.exn) 0 4 (fun j => rfl)
    exact h.trans (by rfl)

/-- An iteration whose decision is a successful interaction step
(click or type), i.e. one that continues the loop rather than
terminating it: the decision is neither an extraction nor
`NoDecision`. -/
def step_continues (e : IterEnv) : Bool :=
  match loop_step e with
  | StepRes.continueClick _ _ => true
  | StepRes.continueType _ _ _ => true
  | _ => false

/-- C5: the loop enters at most `n` iterations for budget `n`, and
when every decision is a continuing interaction step (never an
extraction, never `NoDecision`), it runs exactly `n` full cycles and
terminates with `MaxIterations`. -/
theorem claim5_max_iterations_bound (market : List Char) (env : Nat → IterEnv)
    (i n : Nat) :
    (run_iters market env i n).cycles ≤ n ∧
    ((∀ j, step_continues (env j) = true) →
      (run_iters market env i n).term = Except.ok TerminatedBy.maxIterations ∧
      (run_iters market env i n).cycles = n) := by
  induction n generalizing i with
  | zero => exact ⟨Nat.le_refl 0, fun _ => ⟨rfl, rfl⟩⟩
  | succ r ih =>
    cases hstep : loop_step (env i) with
    | noDecision hc =>
      refine ⟨by simp [run_iters, hstep], ?_⟩
      intro hall
      have := hall i
      rw [step_continues, hstep] at this
      cases this
    | extracted us hc =>
      refine ⟨by simp [run_iters, hstep], ?_⟩
      intro hall
      have := hall i
      rw [step_continues, hstep] at this
      cases this
    | continueClick xp hc =>
      constructor
      · have h1 := (ih (i + 1)).1
        simp only [run_iters, hstep]
        omega
      · intro hall
        have h2 := (ih (i + 1)).2 hall
        simp only [run_iters, hstep]
        exact ⟨h2.1, by omega⟩
    | continueType xp tx hc =>
      constructor
      · have h1 := (ih (i + 1)).1
        simp only [run_iters, hstep]
        omega
      · intro hall
        have h2 := (ih (i + 1)).2 hall
        simp only [run_iters, hstep]
        exact ⟨h2.1, by omega⟩
    | failedAction evts hc =>
      refine ⟨by simp [run_iters, hstep], ?_⟩
      intro hall
      have := hall i
      rw [step_continues, hstep] at this
      cases this
    | raised e evts hc =>
      refine ⟨by simp [run_iters, hstep], ?_⟩
      intro hall
      have := hall i
      rw [step_continues, hstep] at this
      cases this

/-- C5 witness: with budget 3 and a decision sequence of successful
clicks (never extraction, never `NoDecision`), the loop stops after
exactly 3 cycles with `MaxIterations`. -/
theorem claim5_witness :
    (run_iters mkt0 envAlwaysClick 0 3).term = Except.ok TerminatedBy.maxIterations ∧
    (run_iters mkt0 envAlwaysClick 0 3).cycles = 3 :=
  (claim5_max_iterations_bound mkt0 envAlwaysClick 0 3).2 (fun _ => rfl)

/-- C6: every terminal branch of `process_tariff_source` — including
`NavigationFailed` and an escaping exception — calls `browser.quit()`
exactly once; and the scripted decision sequence click, type,
extract([u1, u2]) performs the click then the type, terminates with
`Extracted` carrying `[u1, u2]`, and saves them. -/
theorem claim6_scripted_run_quit_once :
    (∀ (market : List Char) (nav : Nat → NavAttempt) (env : Nat → IterEnv),
      (process_tariff_source market nav env).quits = 1) ∧
    process_tariff_source mkt0 navOk envScripted =
      ⟨Except.ok TerminatedBy.extracted, [u1, u2], [(mkt0, [u1, u2])],
        [ActionEvt.click (some (JsonValue.str ("x1".toList))),
         ActionEvt.typed (some (JsonValue.str ("x2".toList))) (JsonValue.str ("t".toList))],
        0, 3, 1⟩ := by
  constructor
  · intro market nav env
    rw [process_tariff_source]
    split
    · rfl
    · rfl
  · rfl

/-- C7: the decision functions are total on every model-call result:
a transport/timeout error yields the sentinel (`{}` for the action
analyzers, `[]` for extraction), and on a response text the result is
either the sentinel (absent or malformed JSON) or the parsed value of
the selected span — never a propagated exception. -/
theorem claim7_decisions_never_raise (r : Except TransportErr (List Char)) :
    (∀ e, analyze_page_for_action (Except.error e) = JsonValue.obj [] ∧
      analyze_page_for_action_html_only (Except.error e) = JsonValue.obj [] ∧
      extract_tariff_updates (Except.error e) = JsonValue.arr []) ∧
    (analyze_page_for_action r = JsonValue.obj [] ∨
      ∃ t sp v, r = Except.ok t ∧ re_search_span t = some sp ∧
        json_loads sp = some v ∧ analyze_page_for_action r = v) ∧
    (analyze_page_for_action_html_only r = JsonValue.obj [] ∨
      ∃ t sp v, r = Except.ok t ∧ re_search_span t = some sp ∧
        json_loads sp = some v ∧ analyze_page_for_action_html_only r = v) ∧
    (extract_tariff_updates r = JsonValue.arr [] ∨
      ∃ t sp v, r = Except.ok t ∧ re_search_array_span t = some sp ∧
        json_loads sp = some v ∧ extract_tariff_updates r = v) := by
  refine ⟨fun e => ⟨rfl, rfl, rfl⟩, ?_, ?_, ?_⟩
  · cases r with
    | error e => exact Or.inl rfl
    | ok t =>
      cases hsp : re_search_span t with
      | none => exact Or.inl (by simp [analyze_page_for_action, hsp])
      | some sp =>
        cases hl : json_loads sp with
        | none => exact Or.inl (by simp [analyze_page_for_action, hsp, hl])
        | some v =>
          exact Or.inr ⟨t, sp, v, rfl, hsp, hl,
            by simp [analyze_page_for_action, hsp, hl]⟩
  · cases r with
    | error e => exact Or.inl rfl
    | ok t =>
      cases hsp : re_search_span t with
      | none => exact Or.inl (by simp [analyze_page_for_action_html_only, hsp])
      | some sp =>
        cases hl : json_loads sp with
        | none => exact Or.inl (by simp [analyze_page_for_action_html_only, hsp, hl])
        | some v =>
          exact Or.inr ⟨t, sp, v, rfl, hsp, hl,
            by simp [analyze_page_for_action_html_only, hsp, hl]⟩
  · cases r with
    | error e => exact Or.inl rfl
    | ok t =>
      cases hsp : re_search_array_span t with
      | none => exact Or.inl (by simp [extract_tariff_updates, hsp])
      | some sp =>
        cases hl : json_loads sp with
        | none => exact Or.inl (by simp [extract_tariff_updates, hsp, hl])
        | some v =>
          exact Or.inr ⟨t, sp, v, rfl, hsp, hl,
            by simp [extract_tariff_updates, hsp, hl]⟩

/-- C8: the orchestrator's per-source record is a pure function of
that source alone (the batch is a map over the filtered, truncated
list), and a source whose processing throws is caught and recorded
while the remaining sources are processed exactly as they would be
without it. -/
theorem claim8_orchestrator_isolates_failures :
    (∀ (A : Type) (proc : Source → Except Exn A) (sources : List Source),
      main_source_loop proc sources =
        ((sources.filter isActive).take max_sources).map (source_event proc)) ∧
    (∀ (A : Type) (proc : Source → Except Exn A) (s : Source) (rest : List Source)
      (e : Exn), validUrl s.link = true → proc s = Except.error e →
      orchLoop proc (s :: rest) = SrcEvent.caught e :: orchLoop proc rest) := by
  constructor
  · intro A proc sources
    rw [main_source_loop]
    generalize (sources.filter isActive).take max_sources = l
    induction l with
    | nil => rfl
    | cons s rest ih => rw [orchLoop, ih, List.map_cons]
  · intro A proc s rest e hval hproc
    rw [orchLoop, source_event, if_pos hval, hproc]

/-- C8 witness: two active sources with valid URLs; processing the
first throws, yet the second is still processed and yields its own
scripted result. -/
theorem claim8_witness :
    orchLoop procW [srcA, srcB] =
      SrcEvent.caught Exn.otherExn :: orchLoop procW [srcB] ∧
    orchLoop procW [srcB] = [SrcEvent.done 7] := by
  constructor
  · exact claim8_orchestrator_isolates_failures.2 Nat procW srcA [srcB]
      Exn.otherExn rfl rfl
  · rfl

/-- C9: once created, the browser session stays in the thread-local
cache: every later `get_thread_browser` returns the identical cached
browser; terminating a source's loop calls `quit()` but does not evict
the cache, so the next source on the same worker receives the
already-released browser (id 0 is reused after being released, and no
fresh id is allocated). -/
theorem claim9_session_cached_not_evicted (create : Nat → Bool) (h : create 0 = true) :
    (∀ (st : BrowserState) (b : Nat), st.cache = some b →
      get_thread_browser create st = Except.ok (b, st)) ∧
    process_with_session create initBrowserState =
      Except.ok (⟨some 0, 1, [0]⟩, 0) ∧
    process_with_session create ⟨some 0, 1, [0]⟩ =
      Except.ok (⟨some 0, 1, [0, 0]⟩, 0) := by
  refine ⟨?_, ?_, ?_⟩
  · intro st b hb
    simp [get_thread_browser, hb]
  · simp [process_with_session, get_thread_browser, initBrowserState, quit_browser, h]
  · simp [process_with_session, get_thread_browser, quit_browser]

/-- C9 witness: the theorem applied to an always-succeeding browser
constructor: the first source creates and releases browser 0; the
second source is handed the same, already-released browser 0. -/
theorem claim9_witness :
    process_with_session (fun _ => true) initBrowserState =
      Except.ok (⟨some 0, 1, [0]⟩, 0) ∧
    process_with_session (fun _ => true) ⟨some 0, 1, [0]⟩ =
      Except.ok (⟨some 0, 1, [0, 0]⟩, 0) :=
  ⟨(claim9_session_cached_not_evicted (fun _ => true) rfl).2.1,
   (claim9_session_cached_not_evicted (fun _ => true) rfl).2.2⟩

/-- C10: the click/type handlers turn exactly
`NoSuchElementException` and `TimeoutException` into a failure
outcome; any other exception from the interaction primitives escapes
the handler, propagates out of the agent loop (the run terminates with
that exception, not a `TerminatedBy` outcome), and is contained only
at the orchestrator's per-source boundary. -/
theorem claim10_only_two_exceptions_handled :
    (click_element (Except.error Exn.noSuchElement) = Except.ok false ∧
     click_element (Except.error Exn.timeoutExn) = Except.ok false ∧
     type_element (Except.error Exn.noSuchElement) = Except.ok false ∧
     type_element (Except.error Exn.timeoutExn) = Except.ok false) ∧
    (∀ e : Exn, e ≠ Exn.noSuchElement → e ≠ Exn.timeoutExn →
      click_element (Except.error e) = Except.error e ∧
      type_element (Except.error e) = Except.error e) ∧
    (∀ (market : List Char) (env : Nat → IterEnv) (i n : Nat)
      (kvs : List (List Char × JsonValue)), 0 < n →
      analyze_page_for_action (env i).visualResp = JsonValue.obj kvs →
      lookupKey kvs actionKey = some (JsonValue.str clickWord) →
      (env i).clickPrim = Except.error Exn.otherExn →
      (run_iters market env i n).term = Except.error Exn.otherExn) ∧
    (∀ (A : Type) (proc : Source → Except Exn A) (s : Source) (rest : List Source)
      (e : Exn), validUrl s.link = true → proc s = Except.error e →
      orchLoop proc (s :: rest) = SrcEvent.caught e :: orchLoop proc rest) := by
  refine ⟨⟨rfl, rfl, rfl, rfl⟩, ?_, ?_, ?_⟩
  · intro e h1 h2
    cases e with
    | noSuchElement => exact absurd rfl h1
    | timeoutExn => exact absurd rfl h2
    | otherExn => exact ⟨rfl, rfl⟩
  · intro market env i n kvs hn hvis hact hcp
    obtain ⟨r, rfl⟩ : ∃ r, n = r + 1 := ⟨n - 1, by omega⟩
    have htr := pyTruthy_obj_ne_nil (lookupKey_ne_nil hact)
    have hstep : loop_step (env i) =
        StepRes.raised Exn.otherExn [ActionEvt.click (lookupKey kvs xpathKey)] 0 := by
      rw [loop_step, hvis, if_pos htr, loop_step_core, if_pos htr]
      dsimp only
      rw [hact, hcp]
      rfl
    simp [run_iters, hstep]
  · intro A proc s rest e hval hproc
    rw [orchLoop, source_event, if_pos hval, hproc]

/-- C10 witness: the intercepted-click exception (`otherExn`) is not
converted by the handler, escapes the loop, and is caught at the
orchestrator boundary. -/
theorem claim10_witness :
    (click_element (Except.error Exn.otherExn) = Except.error Exn.otherExn ∧
     type_element (Except.error Exn.otherExn) = Except.error Exn.otherExn) ∧
    (run_iters mkt0 envClickRaises 0 5).term = Except.error Exn.otherExn ∧
    orchLoop procW [srcA, srcB] =
      SrcEvent.caught Exn.otherExn :: orchLoop procW [srcB] := by
  refine ⟨claim10_only_two_exceptions_handled.2.1 Exn.otherExn (by decide) (by decide),
    ?_, ?_⟩
  · exact claim10_only_two_exceptions_handled.2.2.1 mkt0 envClickRaises 0 5
      [("action".toList, JsonValue.str ("click".toList)),
       ("xpath".toList, JsonValue.str ("x1".toList))]
      (by decide) rfl rfl rfl
  · exact claim10_only_two_exceptions_handled.2.2.2 Nat procW srcA [srcB]
      Exn.otherExn rfl rfl

